import Mathlib

/-!
Shallow embedding of the AMICO evaluation pipeline
(`src/python/amico/core.py`, class `Evaluation`).

Signal intensities are modelled as rationals (`ℚ`); numpy arrays become
Lean lists (per-voxel sample vectors) and total functions from voxel
coordinates (volumes).  External collaborators — the single-tensor
direction estimator `dipy.reconst.dti`, `numpy.sqrt`, and the nibabel
loader for the external peaks file — are passed in explicitly as
function parameters, mirroring the Python imports.
-/

namespace Amico

/-- Voxel coordinate `(ix, iy, iz)`. -/
abbrev Coord := Nat × Nat × Nat

/-- `y[y < 0] = 0` (core.py line 292): clamp negative samples to zero. -/
def clampNeg (y : List ℚ) : List ℚ :=
  y.map (fun v => if v < 0 then 0 else v)

/-- `np.mean` of a list of rationals (sum divided by length; for the empty
list numpy yields NaN, which compares false in every `>` guard — modelled
here by `0`, which likewise fails every strictly positive guard used on it). -/
def listMean (xs : List ℚ) : ℚ := xs.sum / xs.length

/-- Fancy indexing `y[idx]` (gather). Out-of-range reads default to 0; the
scheme invariant keeps all indices in range. -/
def select (y : List ℚ) (idx : List Nat) : List ℚ :=
  idx.map (fun i => y.getD i 0)

/-- `b0 = np.mean( y[self.scheme.b0_idx] )` (core.py line 294). -/
def voxelB0 (b0_idx : List Nat) (y : List ℚ) : ℚ :=
  listMean (select y b0_idx)

/-- Helper for fancy-index assignment, carrying the current position. -/
def assignIdxAux (idx : List Nat) (v : ℚ) : Nat → List ℚ → List ℚ
  | _, [] => []
  | n, x :: xs => (if n ∈ idx then v else x) :: assignIdxAux idx v (n + 1) xs

/-- Fancy-index assignment `y[idx] = v` (scatter of a scalar). -/
def assignIdx (y : List ℚ) (idx : List Nat) (v : ℚ) : List ℚ :=
  assignIdxAux idx v 0 y

/-- `if doMergeB0 and b0_count > 0 : y[b0_idx] = b0` (core.py lines 295-296). -/
def mergeB0step (doMergeB0 : Bool) (b0_idx : List Nat) (b0_count : Nat)
    (b0 : ℚ) (y : List ℚ) : List ℚ :=
  if doMergeB0 = true ∧ 0 < b0_count then assignIdx y b0_idx b0 else y

/-- The full b0-merging operation: compute the b0 mean of `y`, then
overwrite the b0-indexed samples with it when enabled. -/
def mergeB0op (doMergeB0 : Bool) (b0_idx : List Nat) (b0_count : Nat)
    (y : List ℚ) : List ℚ :=
  mergeB0step doMergeB0 b0_idx b0_count (voxelB0 b0_idx y) y

/-- `if doNormalizeSignal and b0 > 1e-3 : y = y / b0` (core.py lines 298-299). -/
def normStep (doNormalizeSignal : Bool) (b0 : ℚ) (y : List ℚ) : List ℚ :=
  if doNormalizeSignal = true ∧ b0 > 1e-3 then y.map (fun v => v / b0) else y

/-- Per-voxel signal preparation inside the fit loop
(core.py lines 291-299): clamp negatives, compute the b0 mean, merge the
b0 samples when enabled, then normalize by b0 when enabled and the b0
baseline exceeds `1e-3`. -/
def prepareSignal (doMergeB0 doNormalizeSignal : Bool) (b0_idx : List Nat)
    (b0_count : Nat) (raw : List ℚ) : List ℚ :=
  let y := clampNeg raw
  let b0 := voxelB0 b0_idx y
  normStep doNormalizeSignal b0 (mergeB0step doMergeB0 b0_idx b0_count b0 y)

/-- `np.sum(xs**2)`. -/
def sumSq (xs : List ℚ) : ℚ := (xs.map (fun v => v * v)).sum

/-- Per-voxel NRMSE (core.py lines 313-314):
`sqrt( sum((y-y_est)**2) / den ) if den > 1e-16 else 0` with
`den = sum(y**2)`.  `sqrtFn` stands for `numpy.sqrt`. -/
def nrmseVal (sqrtFn : ℚ → ℚ) (y y_est : List ℚ) : ℚ :=
  let den := sumSq y
  if den > 1e-16 then sqrtFn (sumSq (List.zipWith (fun a b => a - b) y y_est) / den)
  else 0

/-- The acquisition scheme, as exposed to core.py by `amico.scheme.Scheme`
(that module is not under src; this models the fields core.py reads:
total sample count, b0 index set, dwi index set). -/
structure Scheme where
  nS : Nat
  b0_idx : List Nat
  dwi_idx : List Nat

/-- Modelled from the spec: `amico/scheme.py` is missing from src; per
spec §3 the b0 index set and the b0 count agree, so `b0_count` is the size
of `b0_idx`. -/
def Scheme.b0_count (s : Scheme) : Nat := s.b0_idx.length

/-- A loaded DWI NIfTI file: spatial dimensions, 4th-dimension sample
count, per-voxel sample vectors, and the header scaling fields read by
`load_data` (`scl_slope`, `scl_inter`, with `np.isfinite` of each). -/
structure DWIFile where
  dim : Nat × Nat × Nat
  nSamples : Nat
  img : Coord → List ℚ
  scl_slope : ℚ
  scl_inter : ℚ
  scl_slope_finite : Bool
  scl_inter_finite : Bool

/-- A loaded binary mask NIfTI file. -/
structure MaskFile where
  dim : Nat × Nat × Nat
  img : Coord → Nat

/-- The data loaded by `load_data`: geometry, signal, scheme and mask
(these fields are always set together by `load_data`). -/
structure DataState where
  dim : Nat × Nat × Nat
  nS : Nat
  niiDWI_img : Coord → List ℚ
  scheme : Scheme
  niiMASK_img : Coord → Nat

/-- Solver parameters: an opaque key/value structure returned by the
model's `set_solver` and passed through to its `fit`. -/
abbrev SolverParams := List (String × ℚ)

/-- The resampled kernel set: tagged with the generating model's id
(`KERNELS['model']`) plus opaque payload. -/
structure KernelSet where
  model : String
  data : List ℚ

/-- The model interface contract (spec §4.3): id, name, declared outputs,
and the per-voxel `fit` returning
`(estimated_signal, refined_directions, output_row)`. -/
structure Model where
  id : String
  name : String
  OUTPUT_names : List String
  fit : List ℚ → List ℚ → KernelSet → Option (List Nat) → SolverParams →
    List ℚ × List ℚ × List ℚ

/-- The output bundle stored in `self.RESULTS` by `fit`
(`DIRs`, `MAPs`, and `NRMSE` only when error computation is enabled). -/
structure Results where
  DIRs : Coord → List ℚ
  MAPs : Coord → List ℚ
  NRMSE : Option (Coord → ℚ)

/-- The configuration options read by the stages modelled here
(`CONFIG` keys set in `__init__` and `set_solver`). -/
structure Config where
  peaks_filename : Option String
  doNormalizeSignal : Bool
  doMergeB0 : Bool
  doComputeNRMSE : Bool
  solver_params : SolverParams

/-- The `Evaluation` object state (core.py lines 42-60). -/
structure Evaluation where
  niiDWI : Option DataState
  model : Option Model
  KERNELS : Option KernelSet
  RESULTS : Option Results
  CONFIG : Config

/-- The state built by `__init__`: nothing loaded, default flags
(`doNormalizeSignal = doMergeB0 = True`, `doComputeNRMSE = False`,
no peaks file). -/
def initialEvaluation : Evaluation :=
  { niiDWI := none
    model := none
    KERNELS := none
    RESULTS := none
    CONFIG :=
      { peaks_filename := none
        doNormalizeSignal := true
        doMergeB0 := true
        doComputeNRMSE := false
        solver_params := [] } }

/-- Errors raised by `load_data` (core.py lines 116-117 and 126-127):
`'Scheme does not match with DWI data'` and
`'MASK geometry does not match with DWI data'`. -/
inductive LoadErr
  | SchemeMismatch
  | MaskGeometry
deriving DecidableEq

/-- Header-driven intensity rescaling (core.py lines 100-103):
`img * scl_slope + scl_inter` when both are finite, the slope is nonzero,
and the pair is not the identity `(1, 0)`. -/
def rescaleDWI (f : DWIFile) : Coord → List ℚ :=
  if f.scl_slope_finite = true ∧ f.scl_inter_finite = true ∧ f.scl_slope ≠ 0 ∧
      (f.scl_slope ≠ 1 ∨ f.scl_inter ≠ 0) then
    fun c => (f.img c).map (fun v => v * f.scl_slope + f.scl_inter)
  else f.img

/-- `load_data` (core.py lines 70-134).  The nibabel loads and the scheme
parse are external; this takes their results.  The scheme/DWI sample-count
check precedes the mask block; a missing mask defaults to an all-ones
volume of the signal's spatial dimensions. -/
def Evaluation.load_data (ev : Evaluation) (dwi : DWIFile) (scheme : Scheme)
    (mask : Option MaskFile) : Except LoadErr Evaluation :=
  let img := rescaleDWI dwi
  if scheme.nS ≠ dwi.nSamples then .error .SchemeMismatch
  else
    match mask with
    | some m =>
      if dwi.dim ≠ m.dim then .error .MaskGeometry
      else .ok { ev with niiDWI := some ⟨dwi.dim, dwi.nSamples, img, scheme, m.img⟩ }
    | none =>
      .ok { ev with niiDWI := some ⟨dwi.dim, dwi.nSamples, img, scheme, fun _ => 1⟩ }

/-- A file-system operation performed by `generate_kernels`. -/
inductive FsOp
  | remove (f : String)
  | makedir
  | generate
deriving DecidableEq

/-- `ps` is an initial segment of `cs` (character-list matcher, used to
model the `glob` pattern). -/
def beginsWith : List Char → List Char → Bool
  | [], _ => true
  | _ :: _, [] => false
  | p :: ps, c :: cs => (p = c) && beginsWith ps cs

/-- The `glob` pattern `'A_*.npy'` used to detect existing atom files
(core.py line 193). -/
def isAtomFile (f : String) : Bool :=
  beginsWith ['A', '_'] f.data && beginsWith ['y', 'p', 'n', '.'] f.data.reverse

/-- `generate_kernels` (core.py lines 192-211), with the atom directory
modelled as the list of file names it holds: `dirExists` is
`exists(ATOMS_path)` and `genFiles` the files the model's `generate`
writes.  Returns the file-system operations performed and the resulting
directory contents.  If matching atom files exist and `regenerate` is
unset, it returns immediately; otherwise it creates the directory (when
missing) or removes every file in it, then dispatches to
`model.generate`. -/
def generate_kernels (regenerate : Bool) (dirExists : Bool)
    (files : List String) (genFiles : List String) :
    List FsOp × List String :=
  if 0 < (files.filter (fun f => isAtomFile f)).length ∧ regenerate = false then
    ([], files)
  else
    ((if dirExists = false then [FsOp.makedir] else files.map FsOp.remove)
        ++ [FsOp.generate],
      genFiles)

/-- The coordinates visited by the fit loop (core.py lines 284-286):
`ix` innermost over `dim.1`, `iy` over `dim.2.1`, `iz` outermost over
`dim.2.2`. -/
def loopCoords (dim : Nat × Nat × Nat) : List Coord :=
  (List.range dim.2.2).flatMap (fun iz =>
    (List.range dim.2.1).flatMap (fun iy =>
      (List.range dim.1).map (fun ix => (ix, iy, iz))))

/-- An external peaks volume (`niiPEAKS`): spatial dimensions, 4th
dimension, and per-voxel direction rows. -/
structure PeaksVol where
  dim : Nat × Nat × Nat
  dim4 : Nat
  img : Coord → List ℚ

/-- External collaborators used inside `fit`: the dipy single-tensor
direction estimate `DTI.fit(y).directions[0]`, `numpy.sqrt`, and the
nibabel load of the peaks file. -/
structure Externals where
  dtiFit : List ℚ → List ℚ
  sqrtFn : ℚ → ℚ
  loadPeaks : String → PeaksVol

/-- Mutable output arrays of the fit loop (`DIRs`, `MAPs`, `NRMSE`). -/
structure FitState where
  DIRs : Coord → List ℚ
  MAPs : Coord → List ℚ
  NRMSEmap : Coord → ℚ

/-- `idx_to_keep` (core.py lines 276-278): when b0 merging applies, the
dwi indices plus the first b0 index, else `None`. -/
def idx_to_keep (doMergeB0 : Bool) (sch : Scheme) : Option (List Nat) :=
  if doMergeB0 = true ∧ 0 < sch.b0_count then
    some (sch.dwi_idx ++ [sch.b0_idx.headD 0])
  else none

/-- The per-voxel computation (core.py lines 290-314) as a function of the
voxel's own inputs: its raw sample vector `signal c`, and `dirsSlot`, the
voxel's own row of the direction volume (read only when an external peaks
volume is in use).  Returns
`(refined directions, output row, fitting error)`. -/
def voxelOut (cfg : Config) (sch : Scheme) (model : Model) (kern : KernelSet)
    (ext : Externals) (usePeaks : Bool) (signal : Coord → List ℚ)
    (dirsSlot : List ℚ) (c : Coord) : List ℚ × List ℚ × ℚ :=
  let y := prepareSignal cfg.doMergeB0 cfg.doNormalizeSignal sch.b0_idx
    sch.b0_count (signal c)
  let dirs := if usePeaks then dirsSlot else ext.dtiFit y
  let r := model.fit y dirs kern (idx_to_keep cfg.doMergeB0 sch) cfg.solver_params
  (r.2.1, r.2.2, nrmseVal ext.sqrtFn y r.1)

/-- One iteration of the fit loop at voxel `c` (core.py lines 287-314):
skip when the mask is zero, else write the refined directions, the output
row, and (when enabled) the fitting error into the voxel's own slots. -/
def voxelStep (cfg : Config) (sch : Scheme) (model : Model) (kern : KernelSet)
    (ext : Externals) (usePeaks : Bool) (signal : Coord → List ℚ)
    (mask : Coord → Nat) (s : FitState) (c : Coord) : FitState :=
  if mask c = 0 then s
  else
    let o := voxelOut cfg sch model kern ext usePeaks signal (s.DIRs c) c
    { DIRs := Function.update s.DIRs c o.1
      MAPs := Function.update s.MAPs c o.2.1
      NRMSEmap :=
        if cfg.doComputeNRMSE = true then Function.update s.NRMSEmap c o.2.2
        else s.NRMSEmap }

/-- The fit loop: fold `voxelStep` over a list of voxel coordinates. -/
def fitLoop (cfg : Config) (sch : Scheme) (model : Model) (kern : KernelSet)
    (ext : Externals) (usePeaks : Bool) (signal : Coord → List ℚ)
    (mask : Coord → Nat) (coords : List Coord) (s : FitState) : FitState :=
  coords.foldl (voxelStep cfg sch model kern ext usePeaks signal mask) s

/-- Initial output arrays (core.py lines 256-273): the direction volume is
all zeros (one direction, 3 components) when no peaks file is given, else
the loaded peaks data; the maps and error volumes are all zeros. -/
def initFitState (nOutputs : Nat) (peaks : Option PeaksVol) : FitState :=
  { DIRs :=
      match peaks with
      | none => fun _ => List.replicate 3 0
      | some p => p.img
    MAPs := fun _ => List.replicate nOutputs 0
    NRMSEmap := fun _ => 0 }

/-- Errors raised by `fit` (core.py lines 242-249 and 267-268), each
naming its missing prerequisite stage:
`'Data not loaded; call "load_data()" first.'`,
`'Model not set; call "set_model()" first.'`,
`'Response functions not generated; call "generate_kernels()" and
"load_kernels()" first.'`,
`'Response functions were not created with the same model.'`, and
`'PEAKS geometry does not match with DWI data'`. -/
inductive FitErr
  | DataNotLoaded
  | ModelNotSet
  | KernelsNotLoaded
  | ModelMismatch
  | PeaksGeometry
deriving DecidableEq

/-- The successful body of `fit`: run the loop over all voxels starting
from the initial arrays and bundle the results (`NRMSE` stored only when
error computation is enabled). -/
def fitBody (cfg : Config) (data : DataState) (model : Model)
    (kern : KernelSet) (ext : Externals) (peaks : Option PeaksVol) : Results :=
  let s0 := initFitState model.OUTPUT_names.length peaks
  let final := fitLoop cfg data.scheme model kern ext peaks.isSome
    data.niiDWI_img data.niiMASK_img (loopCoords data.dim) s0
  ⟨final.DIRs, final.MAPs,
    if cfg.doComputeNRMSE = true then some final.NRMSEmap else none⟩

/-- `fit` (core.py lines 237-326): precondition checks in source order,
then the peaks setup (with its geometry check when a peaks file is
configured), then the voxel loop; on success the results replace
`self.RESULTS`. -/
def Evaluation.fit (ev : Evaluation) (ext : Externals) :
    Except FitErr Evaluation :=
  match ev.niiDWI with
  | none => .error .DataNotLoaded
  | some data =>
    match ev.model with
    | none => .error .ModelNotSet
    | some model =>
      match ev.KERNELS with
      | none => .error .KernelsNotLoaded
      | some kern =>
        if kern.model ≠ model.id then .error .ModelMismatch
        else
          match ev.CONFIG.peaks_filename with
          | none =>
            .ok { ev with
              RESULTS := some (fitBody ev.CONFIG data model kern ext none) }
          | some pf =>
            let p := ext.loadPeaks pf
            if p.dim ≠ data.dim then .error .PeaksGeometry
            else
              .ok { ev with
                RESULTS := some (fitBody ev.CONFIG data model kern ext (some p)) }

end Amico

namespace Amico

theorem assignIdxAux_length (idx : List Nat) (v : ℚ) :
    ∀ n (xs : List ℚ), (assignIdxAux idx v n xs).length = xs.length := by
  intro n xs
  induction xs generalizing n with
  | nil => rfl
  | cons x xs ih => simp [assignIdxAux, ih]

theorem assignIdx_length (y : List ℚ) (idx : List Nat) (v : ℚ) :
    (assignIdx y idx v).length = y.length :=
  assignIdxAux_length idx v 0 y

theorem assignIdxAux_getD (idx : List Nat) (v : ℚ) :
    ∀ (xs : List ℚ) (n i : Nat), i < xs.length →
      (assignIdxAux idx v n xs).getD i 0 =
        if n + i ∈ idx then v else xs.getD i 0 := by
  intro xs
  induction xs with
  | nil => intro n i h; simp at h
  | cons x xs ih =>
    intro n i h
    cases i with
    | zero => simp [assignIdxAux]
    | succ j =>
      have hj : j < xs.length := by
        simpa [Nat.succ_lt_succ_iff] using h
      have := ih (n + 1) j hj
      simp only [assignIdxAux, List.getD_cons_succ]
      rw [this]
      have harith : n + 1 + j = n + (j + 1) := by omega
      rw [harith]

theorem assignIdx_getD (y : List ℚ) (idx : List Nat) (v : ℚ) (i : Nat)
    (h : i < y.length) :
    (assignIdx y idx v).getD i 0 = if i ∈ idx then v else y.getD i 0 := by
  have := assignIdxAux_getD idx v y 0 i h
  simpa using this

theorem select_assignIdx (y : List ℚ) (idx : List Nat) (v : ℚ)
    (hb : ∀ i ∈ idx, i < y.length) :
    select (assignIdx y idx v) idx = List.replicate idx.length v := by
  rw [List.eq_replicate_iff]
  constructor
  · simp [select]
  · intro b hbmem
    simp only [select, List.mem_map] at hbmem
    obtain ⟨i, hi, hib⟩ := hbmem
    rw [← hib, assignIdx_getD y idx v i (hb i hi), if_pos hi]

theorem voxelB0_assignIdx (y : List ℚ) (idx : List Nat) (v : ℚ)
    (hb : ∀ i ∈ idx, i < y.length) (hne : idx ≠ []) :
    voxelB0 idx (assignIdx y idx v) = v := by
  rw [voxelB0, select_assignIdx y idx v hb, listMean, List.sum_replicate,
    List.length_replicate, nsmul_eq_mul]
  have hlen : (idx.length : ℚ) ≠ 0 := by
    simpa using List.length_pos.mpr hne |>.ne'
  field_simp

theorem assignIdx_idem (y : List ℚ) (idx : List Nat) (v : ℚ) :
    assignIdx (assignIdx y idx v) idx v = assignIdx y idx v := by
  apply List.ext_getElem
  · rw [assignIdx_length, assignIdx_length]
  · intro i h1 h2
    have hy : i < y.length := by rwa [assignIdx_length, assignIdx_length] at h1
    have hy1 : i < (assignIdx y idx v).length := by rwa [assignIdx_length]
    rw [← List.getD_eq_getElem _ 0 h1, ← List.getD_eq_getElem _ 0 h2,
      assignIdx_getD _ idx v i hy1, assignIdx_getD y idx v i hy]
    by_cases hmem : i ∈ idx
    · simp [hmem]
    · simp [hmem]

/-- C4: when merging is enabled and at least one b0 sample exists, the
b0-merging step overwrites every b0-indexed sample with the scalar mean of
the signal at the b0 indices, and the whole operation is idempotent:
applying it twice to a signal equals applying it once.  The hypothesis is
the scheme invariant that the b0 indices address samples of the vector
(numpy would raise an IndexError otherwise). -/
theorem fit_mergeB0_overwrites_and_idempotent (y : List ℚ) (b0_idx : List Nat)
    (hb : ∀ i ∈ b0_idx, i < y.length) :
    (∀ i ∈ b0_idx,
        (mergeB0op true b0_idx b0_idx.length y).getD i 0 = voxelB0 b0_idx y) ∧
    (∀ doMergeB0 : Bool,
        mergeB0op doMergeB0 b0_idx b0_idx.length
            (mergeB0op doMergeB0 b0_idx b0_idx.length y) =
          mergeB0op doMergeB0 b0_idx b0_idx.length y) := by
  constructor
  · intro i hi
    have hpos : 0 < b0_idx.length := List.length_pos.mpr (List.ne_nil_of_mem hi)
    rw [mergeB0op, mergeB0step, if_pos ⟨rfl, hpos⟩,
      assignIdx_getD y b0_idx _ i (hb i hi), if_pos hi]
  · intro doMergeB0
    cases doMergeB0 with
    | false => simp [mergeB0op, mergeB0step]
    | true =>
      rcases eq_or_ne b0_idx [] with hnil | hne
      · subst hnil; simp [mergeB0op, mergeB0step]
      · have hpos : 0 < b0_idx.length := List.length_pos.mpr hne
        have key := voxelB0_assignIdx y b0_idx (voxelB0 b0_idx y) hb hne
        simp [mergeB0op, mergeB0step, hpos, key, assignIdx_idem]

/-- Witness for `fit_mergeB0_overwrites_and_idempotent` at a concrete
3-sample signal with b0 indices `[0, 2]`. -/
theorem fit_mergeB0_overwrites_and_idempotent_witness :
    (∀ i ∈ [0, 2], i < ([5, 1, 3] : List ℚ).length) ∧
    ((∀ i ∈ [0, 2],
        (mergeB0op true [0, 2] ([0, 2] : List Nat).length [5, 1, 3]).getD i 0 =
          voxelB0 [0, 2] [5, 1, 3]) ∧
     (∀ doMergeB0 : Bool,
        mergeB0op doMergeB0 [0, 2] ([0, 2] : List Nat).length
            (mergeB0op doMergeB0 [0, 2] ([0, 2] : List Nat).length [5, 1, 3]) =
          mergeB0op doMergeB0 [0, 2] ([0, 2] : List Nat).length [5, 1, 3])) :=
  ⟨by decide, fit_mergeB0_overwrites_and_idempotent [5, 1, 3] [0, 2] (by decide)⟩

/-- C6: the per-voxel fitting error is
`sqrt(sum((y - y_est)^2) / sum(y^2))` whenever the signal energy
`sum(y^2)` exceeds `1e-16`, and exactly `0` otherwise; in particular a
signal of exactly zero energy yields error exactly `0` (no NaN, no
exception). -/
theorem fit_nrmse_guard (sqrtFn : ℚ → ℚ) (y y_est : List ℚ) :
    (sumSq y > 1e-16 →
      nrmseVal sqrtFn y y_est =
        sqrtFn (sumSq (List.zipWith (fun a b => a - b) y y_est) / sumSq y)) ∧
    (¬ sumSq y > 1e-16 → nrmseVal sqrtFn y y_est = 0) ∧
    (sumSq y = 0 → nrmseVal sqrtFn y y_est = 0) := by
  refine ⟨fun h => ?_, fun h => ?_, fun h => ?_⟩
  · rw [nrmseVal, if_pos h]
  · rw [nrmseVal, if_neg h]
  · have hng : ¬ sumSq y > 1e-16 := by rw [h]; norm_num
    rw [nrmseVal, if_neg hng]

/-- Witness for `fit_nrmse_guard`: an all-zero two-sample signal has zero
energy and its computed error is exactly `0`. -/
theorem fit_nrmse_guard_witness :
    sumSq [0, 0] = 0 ∧ nrmseVal id [0, 0] [1, 1] = 0 :=
  ⟨by norm_num [sumSq], (fit_nrmse_guard id [0, 0] [1, 1]).2.2 (by norm_num [sumSq])⟩

/-- C5: the prepared per-voxel signal is divided by its b0 baseline exactly
when normalization is enabled and `b0 > 1e-3`; when `b0 ≤ 1e-3` (in
particular near zero) the voxel is fit on the merged but un-normalized
signal, so no division by a near-zero baseline occurs. -/
theorem fit_normalization_guard (doMergeB0 doNormalizeSignal : Bool)
    (b0_idx : List Nat) (b0_count : Nat) (raw : List ℚ) :
    (doNormalizeSignal = true ∧ voxelB0 b0_idx (clampNeg raw) > 1e-3 →
      prepareSignal doMergeB0 doNormalizeSignal b0_idx b0_count raw =
        (mergeB0step doMergeB0 b0_idx b0_count (voxelB0 b0_idx (clampNeg raw))
            (clampNeg raw)).map
          (fun v => v / voxelB0 b0_idx (clampNeg raw))) ∧
    (¬ (doNormalizeSignal = true ∧ voxelB0 b0_idx (clampNeg raw) > 1e-3) →
      prepareSignal doMergeB0 doNormalizeSignal b0_idx b0_count raw =
        mergeB0step doMergeB0 b0_idx b0_count (voxelB0 b0_idx (clampNeg raw))
          (clampNeg raw)) := by
  refine ⟨fun h => ?_, fun h => ?_⟩
  · rw [prepareSignal, normStep, if_pos h]
  · rw [prepareSignal, normStep, if_neg h]

theorem loopCoords_mem (d : Nat × Nat × Nat) (c : Coord) :
    c ∈ loopCoords d ↔ c.1 < d.1 ∧ c.2.1 < d.2.1 ∧ c.2.2 < d.2.2 := by
  obtain ⟨a, b, e⟩ := c
  constructor
  · intro h
    simp only [loopCoords, List.mem_flatMap, List.mem_map, List.mem_range] at h
    obtain ⟨iz, hz, iy, hy, ix, hx, heq⟩ := h
    cases heq
    exact ⟨hx, hy, hz⟩
  · rintro ⟨h1, h2, h3⟩
    simp only [loopCoords, List.mem_flatMap, List.mem_map, List.mem_range]
    exact ⟨e, h3, b, h2, a, h1, rfl⟩

theorem loopCoords_nodup (d : Nat × Nat × Nat) : (loopCoords d).Nodup := by
  rw [loopCoords, List.nodup_flatMap]
  constructor
  · intro iz _
    rw [List.nodup_flatMap]
    constructor
    · intro iy _
      exact (List.nodup_range _).map (fun x1 x2 h => by
        simpa using congrArg Prod.fst h)
    · refine (List.nodup_range _).imp ?_
      intro iy1 iy2 hne x hx1 hx2
      simp only [List.mem_map, List.mem_range] at hx1 hx2
      obtain ⟨ix1, _, rfl⟩ := hx1
      obtain ⟨ix2, _, h⟩ := hx2
      exact hne (by simpa using (congrArg (fun p => p.2.1) h).symm)
  · refine (List.nodup_range _).imp ?_
    intro iz1 iz2 hne x hx1 hx2
    simp only [List.mem_flatMap, List.mem_map, List.mem_range] at hx1 hx2
    obtain ⟨iy1, _, ix1, _, rfl⟩ := hx1
    obtain ⟨iy2, _, ix2, _, h⟩ := hx2
    exact hne (by simpa using (congrArg (fun p => p.2.2) h).symm)

section FitLoopLemmas

variable (cfg : Config) (sch : Scheme) (model : Model) (kern : KernelSet)
  (ext : Externals) (usePeaks : Bool) (signal : Coord → List ℚ)
  (mask : Coord → Nat)

theorem voxelStep_other (s : FitState) (c c' : Coord) (h : c' ≠ c) :
    (voxelStep cfg sch model kern ext usePeaks signal mask s c).DIRs c' = s.DIRs c' ∧
    (voxelStep cfg sch model kern ext usePeaks signal mask s c).MAPs c' = s.MAPs c' ∧
    (voxelStep cfg sch model kern ext usePeaks signal mask s c).NRMSEmap c' =
      s.NRMSEmap c' := by
  unfold voxelStep
  split
  · exact ⟨rfl, rfl, rfl⟩
  · refine ⟨Function.update_noteq h _ _, Function.update_noteq h _ _, ?_⟩
    split
    · exact Function.update_noteq h _ _
    · rfl

theorem fitLoop_notMem (coords : List Coord) (s : FitState) (c : Coord)
    (h : c ∉ coords) :
    (fitLoop cfg sch model kern ext usePeaks signal mask coords s).DIRs c = s.DIRs c ∧
    (fitLoop cfg sch model kern ext usePeaks signal mask coords s).MAPs c = s.MAPs c ∧
    (fitLoop cfg sch model kern ext usePeaks signal mask coords s).NRMSEmap c =
      s.NRMSEmap c := by
  induction coords generalizing s with
  | nil => exact ⟨rfl, rfl, rfl⟩
  | cons a t ih =>
    have hca : c ≠ a := fun hh => h (hh ▸ List.mem_cons_self a t)
    have hct : c ∉ t := fun hh => h (List.mem_cons_of_mem a hh)
    have hstep := voxelStep_other cfg sch model kern ext usePeaks signal mask s a c hca
    have hrest := ih (voxelStep cfg sch model kern ext usePeaks signal mask s a) hct
    exact ⟨hrest.1.trans hstep.1, hrest.2.1.trans hstep.2.1,
      hrest.2.2.trans hstep.2.2⟩

theorem fitLoop_maskZero (coords : List Coord) (s : FitState) (c : Coord)
    (h : mask c = 0) :
    (fitLoop cfg sch model kern ext usePeaks signal mask coords s).DIRs c = s.DIRs c ∧
    (fitLoop cfg sch model kern ext usePeaks signal mask coords s).MAPs c = s.MAPs c ∧
    (fitLoop cfg sch model kern ext usePeaks signal mask coords s).NRMSEmap c =
      s.NRMSEmap c := by
  induction coords generalizing s with
  | nil => exact ⟨rfl, rfl, rfl⟩
  | cons a t ih =>
    have hstep : ∀ s' : FitState,
        (voxelStep cfg sch model kern ext usePeaks signal mask s' a).DIRs c = s'.DIRs c ∧
        (voxelStep cfg sch model kern ext usePeaks signal mask s' a).MAPs c = s'.MAPs c ∧
        (voxelStep cfg sch model kern ext usePeaks signal mask s' a).NRMSEmap c =
          s'.NRMSEmap c := by
      intro s'
      rcases eq_or_ne c a with hca | hca
      · subst hca
        unfold voxelStep
        rw [if_pos h]
        exact ⟨rfl, rfl, rfl⟩
      · exact voxelStep_other cfg sch model kern ext usePeaks signal mask s' a c hca
    have hrest := ih (voxelStep cfg sch model kern ext usePeaks signal mask s a)
    have hs := hstep s
    exact ⟨hrest.1.trans hs.1, hrest.2.1.trans hs.2.1, hrest.2.2.trans hs.2.2⟩

theorem fitLoop_char (coords : List Coord) (h : coords.Nodup) (s : FitState)
    (c : Coord) :
    ((fitLoop cfg sch model kern ext usePeaks signal mask coords s).DIRs c =
      if c ∈ coords ∧ mask c ≠ 0 then
        (voxelOut cfg sch model kern ext usePeaks signal (s.DIRs c) c).1
      else s.DIRs c) ∧
    ((fitLoop cfg sch model kern ext usePeaks signal mask coords s).MAPs c =
      if c ∈ coords ∧ mask c ≠ 0 then
        (voxelOut cfg sch model kern ext usePeaks signal (s.DIRs c) c).2.1
      else s.MAPs c) ∧
    ((fitLoop cfg sch model kern ext usePeaks signal mask coords s).NRMSEmap c =
      if (c ∈ coords ∧ mask c ≠ 0) ∧ cfg.doComputeNRMSE = true then
        (voxelOut cfg sch model kern ext usePeaks signal (s.DIRs c) c).2.2
      else s.NRMSEmap c) := by
  induction coords generalizing s with
  | nil => simp [fitLoop]
  | cons a t ih =>
    have ha : a ∉ t := (List.nodup_cons.mp h).1
    have ht : t.Nodup := (List.nodup_cons.mp h).2
    have hunfold : fitLoop cfg sch model kern ext usePeaks signal mask (a :: t) s =
        fitLoop cfg sch model kern ext usePeaks signal mask t
          (voxelStep cfg sch model kern ext usePeaks signal mask s a) := rfl
    rcases eq_or_ne c a with hca | hca
    · subst hca
      have hrest := fitLoop_notMem cfg sch model kern ext usePeaks signal mask t
        (voxelStep cfg sch model kern ext usePeaks signal mask s c) c ha
      rw [hunfold]
      rcases eq_or_ne (mask c) 0 with hm | hm
      · have hskip : voxelStep cfg sch model kern ext usePeaks signal mask s c = s := by
          unfold voxelStep; rw [if_pos hm]
        rw [hskip] at hrest ⊢
        refine ⟨?_, ?_, ?_⟩
        · rw [hrest.1, if_neg (by simp [hm])]
        · rw [hrest.2.1, if_neg (by simp [hm])]
        · rw [hrest.2.2, if_neg (by simp [hm])]
      · have hmem : c ∈ c :: t ∧ mask c ≠ 0 := ⟨List.mem_cons_self c t, hm⟩
        have hwrite : voxelStep cfg sch model kern ext usePeaks signal mask s c =
            { DIRs := Function.update s.DIRs c
                (voxelOut cfg sch model kern ext usePeaks signal (s.DIRs c) c).1
              MAPs := Function.update s.MAPs c
                (voxelOut cfg sch model kern ext usePeaks signal (s.DIRs c) c).2.1
              NRMSEmap :=
                if cfg.doComputeNRMSE = true then
                  Function.update s.NRMSEmap c
                    (voxelOut cfg sch model kern ext usePeaks signal (s.DIRs c) c).2.2
                else s.NRMSEmap } := by
          unfold voxelStep; rw [if_neg hm]
        rw [hwrite] at hrest ⊢
        refine ⟨?_, ?_, ?_⟩
        · rw [hrest.1, if_pos hmem]
          exact Function.update_same c _ s.DIRs
        · rw [hrest.2.1, if_pos hmem]
          exact Function.update_same c _ s.MAPs
        · rw [hrest.2.2]
          rcases eq_or_ne cfg.doComputeNRMSE true with hflag | hflag
          · rw [if_pos hflag, if_pos (And.intro hmem hflag)]
            exact Function.update_same c _ s.NRMSEmap
          · rw [if_neg hflag, if_neg (fun hh => hflag hh.2)]
    · have hstep := voxelStep_other cfg sch model kern ext usePeaks signal mask s a c
        hca
      have hrest := ih ht (voxelStep cfg sch model kern ext usePeaks signal mask s a)
      rw [hunfold]
      have hmemiff : (c ∈ a :: t ∧ mask c ≠ 0) ↔ (c ∈ t ∧ mask c ≠ 0) := by
        simp [List.mem_cons, hca]
      refine ⟨?_, ?_, ?_⟩
      · rw [hrest.1, hstep.1]
        by_cases hcm : c ∈ t ∧ mask c ≠ 0
        · rw [if_pos hcm, if_pos (hmemiff.mpr hcm)]
        · rw [if_neg hcm, if_neg (fun hh => hcm (hmemiff.mp hh))]
      · rw [hrest.2.1, hstep.1]
        by_cases hcm : c ∈ t ∧ mask c ≠ 0
        · rw [if_pos hcm, if_pos (hmemiff.mpr hcm)]
        · rw [if_neg hcm]
          rw [if_neg (fun hh => hcm (hmemiff.mp hh))]
          exact hstep.2.1.symm ▸ rfl
      · rw [hrest.2.2, hstep.1]
        by_cases hcm : (c ∈ t ∧ mask c ≠ 0) ∧ cfg.doComputeNRMSE = true
        · rw [if_pos hcm, if_pos ⟨hmemiff.mpr hcm.1, hcm.2⟩]
        · rw [if_neg hcm, if_neg (fun hh => hcm ⟨hmemiff.mp hh.1, hh.2⟩)]
          exact hstep.2.2

/-- C9: each voxel's output depends only on that voxel's mask value, its
own signal samples, its own slot of the initial direction volume, and the
shared immutable inputs; consequently running the voxel loop over any two
duplicate-free coordinate lists containing the same voxels yields
identical direction, map and error values everywhere. -/
theorem fit_voxel_order_independent (cfg : Config) (sch : Scheme)
    (model : Model) (kern : KernelSet) (ext : Externals) (usePeaks : Bool)
    (signal : Coord → List ℚ) (mask : Coord → Nat) (l1 l2 : List Coord)
    (h1 : l1.Nodup) (h2 : l2.Nodup) (hmem : ∀ c : Coord, c ∈ l1 ↔ c ∈ l2)
    (s : FitState) (c : Coord) :
    (fitLoop cfg sch model kern ext usePeaks signal mask l1 s).DIRs c =
      (fitLoop cfg sch model kern ext usePeaks signal mask l2 s).DIRs c ∧
    (fitLoop cfg sch model kern ext usePeaks signal mask l1 s).MAPs c =
      (fitLoop cfg sch model kern ext usePeaks signal mask l2 s).MAPs c ∧
    (fitLoop cfg sch model kern ext usePeaks signal mask l1 s).NRMSEmap c =
      (fitLoop cfg sch model kern ext usePeaks signal mask l2 s).NRMSEmap c := by
  have e1 := fitLoop_char cfg sch model kern ext usePeaks signal mask l1 h1 s c
  have e2 := fitLoop_char cfg sch model kern ext usePeaks signal mask l2 h2 s c
  have hc1 : (c ∈ l1 ∧ mask c ≠ 0) ↔ (c ∈ l2 ∧ mask c ≠ 0) :=
    and_congr_left' (hmem c)
  refine ⟨?_, ?_, ?_⟩
  · rw [e1.1, e2.1]
    by_cases hc : c ∈ l2 ∧ mask c ≠ 0
    · rw [if_pos (hc1.mpr hc), if_pos hc]
    · rw [if_neg (fun hh => hc (hc1.mp hh)), if_neg hc]
  · rw [e1.2.1, e2.2.1]
    by_cases hc : c ∈ l2 ∧ mask c ≠ 0
    · rw [if_pos (hc1.mpr hc), if_pos hc]
    · rw [if_neg (fun hh => hc (hc1.mp hh)), if_neg hc]
  · rw [e1.2.2, e2.2.2]
    by_cases hc : (c ∈ l2 ∧ mask c ≠ 0) ∧ cfg.doComputeNRMSE = true
    · rw [if_pos ⟨hc1.mpr hc.1, hc.2⟩, if_pos hc]
    · rw [if_neg (fun hh => hc ⟨hc1.mp hh.1, hh.2⟩), if_neg hc]

end FitLoopLemmas

/-- A concrete one-output model whose `fit` returns the signal unchanged,
a fixed direction, and the signal mean as output row (used by witnesses). -/
def wModel : Model :=
  ⟨"mid", "mname", ["o1"], fun y d _ _ _ => (y, d, [listMean y])⟩

/-- A kernel set tagged with `wModel`'s id. -/
def wKern : KernelSet := ⟨"mid", [0]⟩

/-- A kernel set tagged with a different model id. -/
def wKernBad : KernelSet := ⟨"other", [0]⟩

/-- A two-sample scheme: sample 0 is b0, sample 1 is dwi. -/
def wScheme : Scheme := ⟨2, [0], [1]⟩

/-- Concrete externals: fixed tensor direction, identity square root, and
a 1×1×1 peaks volume whose every row is `[5, 0, 0]`. -/
def wExt : Externals :=
  ⟨fun _ => [1, 0, 0], id, fun _ => ⟨(1, 1, 1), 3, fun _ => [5, 0, 0]⟩⟩

/-- Concrete loaded data: a 2×1×1 volume, two samples per voxel, all-ones
mask. -/
def wData : DataState := ⟨(2, 1, 1), 2, fun _ => [1, 1], wScheme, fun _ => 1⟩

/-- Witness for `fit_voxel_order_independent`: visiting the two voxels of
a 2×1×1 volume in either order yields the same outputs. -/
theorem fit_voxel_order_independent_witness :
    ([((0 : Nat), (0 : Nat), (0 : Nat)), (1, 0, 0)] : List Coord).Nodup ∧
    ([((1 : Nat), (0 : Nat), (0 : Nat)), (0, 0, 0)] : List Coord).Nodup ∧
    (∀ c : Coord,
      c ∈ ([((0 : Nat), (0 : Nat), (0 : Nat)), (1, 0, 0)] : List Coord) ↔
      c ∈ ([((1 : Nat), (0 : Nat), (0 : Nat)), (0, 0, 0)] : List Coord)) ∧
    ((fitLoop initialEvaluation.CONFIG wScheme wModel wKern wExt false
        wData.niiDWI_img wData.niiMASK_img [(0, 0, 0), (1, 0, 0)]
        (initFitState 1 none)).MAPs (0, 0, 0) =
      (fitLoop initialEvaluation.CONFIG wScheme wModel wKern wExt false
        wData.niiDWI_img wData.niiMASK_img [(1, 0, 0), (0, 0, 0)]
        (initFitState 1 none)).MAPs (0, 0, 0)) := by
  have hmem : ∀ c : Coord,
      c ∈ ([((0 : Nat), (0 : Nat), (0 : Nat)), (1, 0, 0)] : List Coord) ↔
      c ∈ ([((1 : Nat), (0 : Nat), (0 : Nat)), (0, 0, 0)] : List Coord) := by
    intro c
    simp only [List.mem_cons, List.not_mem_nil, or_false]
    exact or_comm
  refine ⟨by decide, by decide, hmem, ?_⟩
  exact (fit_voxel_order_independent initialEvaluation.CONFIG wScheme wModel
    wKern wExt false wData.niiDWI_img wData.niiMASK_img
    [(0, 0, 0), (1, 0, 0)] [(1, 0, 0), (0, 0, 0)]
    (by decide) (by decide) hmem (initFitState 1 none) (0, 0, 0)).2.1

/-- C2: `fit` fails before any voxel is processed when the signal volume is
not loaded, the model is not set, no kernel set is loaded, or the kernel
set's model id differs from the active model's id — in source order, each
with its stage-naming error — and in every such case it returns an error
carrying no results. -/
theorem fit_preconditions (ev : Evaluation) (ext : Externals) :
    (ev.niiDWI = none → ev.fit ext = .error .DataNotLoaded) ∧
    (ev.niiDWI ≠ none → ev.model = none → ev.fit ext = .error .ModelNotSet) ∧
    (ev.niiDWI ≠ none → ev.model ≠ none → ev.KERNELS = none →
      ev.fit ext = .error .KernelsNotLoaded) ∧
    (∀ m k, ev.niiDWI ≠ none → ev.model = some m → ev.KERNELS = some k →
      k.model ≠ m.id → ev.fit ext = .error .ModelMismatch) := by
  refine ⟨fun h => ?_, fun hd hm => ?_, fun hd hm hk => ?_,
    fun m k hd hm hk hne => ?_⟩
  · simp [Evaluation.fit, h]
  · obtain ⟨d, hd'⟩ := Option.ne_none_iff_exists'.mp hd
    simp [Evaluation.fit, hd', hm]
  · obtain ⟨d, hd'⟩ := Option.ne_none_iff_exists'.mp hd
    obtain ⟨m, hm'⟩ := Option.ne_none_iff_exists'.mp hm
    simp [Evaluation.fit, hd', hm', hk]
  · obtain ⟨d, hd'⟩ := Option.ne_none_iff_exists'.mp hd
    simp [Evaluation.fit, hd', hm, hk, hne]

/-- Evaluation with data loaded but no model set. -/
def evNoModel : Evaluation := { initialEvaluation with niiDWI := some wData }

/-- Evaluation with data and model but no kernels. -/
def evNoKernels : Evaluation := { evNoModel with model := some wModel }

/-- Evaluation whose kernel set was built by a different model. -/
def evMismatch : Evaluation := { evNoKernels with KERNELS := some wKernBad }

/-- Witness for `fit_preconditions`: all four precondition failures at
concrete evaluations. -/
theorem fit_preconditions_witness :
    Evaluation.fit initialEvaluation wExt = .error .DataNotLoaded ∧
    Evaluation.fit evNoModel wExt = .error .ModelNotSet ∧
    Evaluation.fit evNoKernels wExt = .error .KernelsNotLoaded ∧
    (wKernBad.model ≠ wModel.id ∧
      Evaluation.fit evMismatch wExt = .error .ModelMismatch) :=
  ⟨(fit_preconditions initialEvaluation wExt).1 rfl,
   (fit_preconditions evNoModel wExt).2.1 (by simp [evNoModel]) rfl,
   (fit_preconditions evNoKernels wExt).2.2.1 (by simp [evNoKernels, evNoModel])
     (by simp [evNoKernels, evNoModel, wModel]) rfl,
   by decide,
   (fit_preconditions evMismatch wExt).2.2.2 wModel wKernBad
     (by simp [evMismatch, evNoKernels, evNoModel]) rfl rfl (by decide)⟩

/-- C3: `load_data` fails with the scheme/DWI mismatch error whenever the
scheme's sample count differs from the signal's 4th-dimension length
(never truncating), and fails with the mask geometry error — before any
fitting — when a supplied mask's spatial shape differs from the signal's
spatial shape. -/
theorem load_data_geometry_checks (ev : Evaluation) (dwi : DWIFile)
    (scheme : Scheme) (mask : Option MaskFile) (m : MaskFile) :
    (scheme.nS ≠ dwi.nSamples →
      ev.load_data dwi scheme mask = .error .SchemeMismatch) ∧
    (scheme.nS = dwi.nSamples → dwi.dim ≠ m.dim →
      ev.load_data dwi scheme (some m) = .error .MaskGeometry) := by
  constructor
  · intro h
    simp only [Evaluation.load_data]
    rw [if_pos h]
  · intro h hdim
    simp only [Evaluation.load_data]
    rw [if_neg (fun hh => hh h), if_pos hdim]

/-- A 2×2×2 DWI volume with 3 samples per voxel and identity scaling. -/
def wDWI3 : DWIFile := ⟨(2, 2, 2), 3, fun _ => [1, 1, 1], 1, 0, true, true⟩

/-- A scheme with the wrong sample count for `wDWI3`. -/
def wSchemeBad : Scheme := ⟨4, [0], [1, 2, 3]⟩

/-- A scheme with the right sample count for `wDWI3`. -/
def wScheme3 : Scheme := ⟨3, [0], [1, 2]⟩

/-- A mask whose spatial shape disagrees with `wDWI3`. -/
def wMaskBad : MaskFile := ⟨(1, 1, 1), fun _ => 1⟩

/-- Witness for `load_data_geometry_checks`: both geometry failures at
concrete inputs. -/
theorem load_data_geometry_checks_witness :
    (wSchemeBad.nS ≠ wDWI3.nSamples ∧
      Evaluation.load_data initialEvaluation wDWI3 wSchemeBad none =
        .error .SchemeMismatch) ∧
    (wScheme3.nS = wDWI3.nSamples ∧ wDWI3.dim ≠ wMaskBad.dim ∧
      Evaluation.load_data initialEvaluation wDWI3 wScheme3 (some wMaskBad) =
        .error .MaskGeometry) :=
  ⟨⟨by decide,
    (load_data_geometry_checks initialEvaluation wDWI3 wSchemeBad none wMaskBad).1
      (by decide)⟩,
   ⟨by decide, by decide,
    (load_data_geometry_checks initialEvaluation wDWI3 wScheme3 (some wMaskBad)
        wMaskBad).2 (by decide) (by decide)⟩⟩

/-- C7: on an atom directory already holding files matching `A_*.npy`,
`generate_kernels` without the regenerate flag performs no file-system
operation and leaves the directory unchanged; with the flag set it first
removes every prior file of the directory and only then dispatches to the
model's `generate`. -/
theorem generate_kernels_caching (dirExists : Bool) (files genFiles : List String) :
    (0 < (files.filter (fun f => isAtomFile f)).length →
      generate_kernels false dirExists files genFiles = ([], files)) ∧
    (generate_kernels true true files genFiles =
      (files.map FsOp.remove ++ [FsOp.generate], genFiles)) := by
  constructor
  · intro h
    rw [generate_kernels, if_pos ⟨h, rfl⟩]
  · rw [generate_kernels,
      if_neg (fun hh => Bool.false_ne_true hh.2.symm)]
    simp

/-- Witness for `generate_kernels_caching`: a directory holding
`A_001.npy` is left untouched without the flag, and purged before
regeneration with it. -/
theorem generate_kernels_caching_witness :
    (0 < ((["A_001.npy", "aux.txt"] : List String).filter
        (fun f => isAtomFile f)).length) ∧
    generate_kernels false true ["A_001.npy", "aux.txt"] ["A_new.npy"] =
      ([], ["A_001.npy", "aux.txt"]) ∧
    generate_kernels true true ["A_001.npy", "aux.txt"] ["A_new.npy"] =
      ([FsOp.remove "A_001.npy", FsOp.remove "aux.txt", FsOp.generate],
        ["A_new.npy"]) :=
  ⟨by decide,
   (generate_kernels_caching true ["A_001.npy", "aux.txt"] ["A_new.npy"]).1
     (by decide),
   (generate_kernels_caching true ["A_001.npy", "aux.txt"] ["A_new.npy"]).2⟩

/-- C8: the per-voxel working copy starts as the extracted sample vector
with every negative entry clamped to zero (same length, entries unchanged
when nonnegative, all entries nonnegative afterwards), while the stored 4D
signal volume is left unchanged by a whole successful `fit`. -/
theorem fit_clamp_and_signal_frame (ev : Evaluation) (ext : Externals)
    (ev' : Evaluation) (h : ev.fit ext = .ok ev') :
    (∀ (y : List ℚ) (i : Nat), i < y.length →
      (clampNeg y).getD i 0 = if y.getD i 0 < 0 then 0 else y.getD i 0) ∧
    (∀ (y : List ℚ) (i : Nat), 0 ≤ (clampNeg y).getD i 0) ∧
    (∀ y : List ℚ, (clampNeg y).length = y.length) ∧
    ev'.niiDWI = ev.niiDWI := by
  have hclamp : ∀ (y : List ℚ) (i : Nat), i < y.length →
      (clampNeg y).getD i 0 = if y.getD i 0 < 0 then 0 else y.getD i 0 := by
    intro y i hi
    have hi' : i < (clampNeg y).length := by simpa [clampNeg] using hi
    rw [List.getD_eq_getElem _ _ hi', List.getD_eq_getElem _ _ hi]
    simp [clampNeg]
  refine ⟨hclamp, ?_, ?_, ?_⟩
  · intro y i
    by_cases hi : i < y.length
    · rw [hclamp y i hi]
      split

      · exact le_refl 0
      · exact not_lt.mp (by assumption)
    · have hlen : (clampNeg y).length ≤ i := by
        simpa [clampNeg] using Nat.le_of_not_lt hi
      rw [List.getD_eq_default _ _ hlen]
  · intro y
    simp [clampNeg]
  · simp only [Evaluation.fit] at h
    split at h
    · exact absurd h (by simp)
    · split at h
      · exact absurd h (by simp)
      · split at h
        · exact absurd h (by simp)
        · split at h
          · exact absurd h (by simp)
          · split at h
            · injection h with h2
              subst h2
              rfl
            · split at h
              · exact absurd h (by simp)
              · injection h with h2
                subst h2
                rfl

/-- Successful fit of `wData` with `wModel`, used as C8's witness state. -/
def wEvalOk : Evaluation :=
  { initialEvaluation with
    niiDWI := some wData
    model := some wModel
    KERNELS := some wKern }

/-- The evaluation produced by fitting `wEvalOk`. -/
def wEvalOk' : Evaluation :=
  { wEvalOk with
    RESULTS := some (fitBody wEvalOk.CONFIG wData wModel wKern wExt none) }

/-- Witness for `fit_clamp_and_signal_frame`: a concrete successful fit
whose resulting state keeps the loaded signal volume unchanged. -/
theorem fit_clamp_and_signal_frame_witness :
    Evaluation.fit wEvalOk wExt = .ok wEvalOk' ∧
    wEvalOk'.niiDWI = wEvalOk.niiDWI :=
  ⟨rfl, (fit_clamp_and_signal_frame wEvalOk wExt wEvalOk' rfl).2.2.2⟩

/-- Configuration selecting an external peaks file, with error computation
enabled. -/
def cexCfg : Config := ⟨some "peaks.nii", true, true, true, []⟩

/-- A 1×1×1 data state whose mask is zero everywhere. -/
def cexData : DataState := ⟨(1, 1, 1), 2, fun _ => [1, 1], wScheme, fun _ => 0⟩

/-- Evaluation ready to fit `cexData` in external-peaks mode. -/
def cexEval : Evaluation := ⟨some cexData, some wModel, some wKern, none, cexCfg⟩

/-- C1 counterexample: with an external peaks volume supplied, a fully
masked-out voxel's direction-volume slot after `fit` holds the loaded
peaks row `[5, 0, 0]`, not the zero value the claim asserts. -/
theorem fit_masked_zero_cex :
    cexData.niiMASK_img (0, 0, 0) = 0 ∧
    (Evaluation.fit cexEval wExt).toOption.map
        (fun e => e.RESULTS.map (fun r => r.DIRs (0, 0, 0))) =
      some (some [5, 0, 0]) ∧
    ([5, 0, 0] : List ℚ) ≠ ([0, 0, 0] : List ℚ) :=
  ⟨rfl, rfl, by decide⟩

/-- C1 (amended): after a successful `fit`, every masked-out voxel's slot
keeps its initialized value in every output: the output-maps row stays all
zeros, the error stays zero, and the direction row stays the zero
initialization when directions are estimated in-pipeline, but stays the
voxel's row of the loaded peaks volume when an external peaks file is
supplied. -/
theorem fit_masked_voxel_preserved (ev : Evaluation) (ext : Externals)
    (data : DataState) (model : Model) (ev' : Evaluation) (r : Results)
    (c : Coord) (hd : ev.niiDWI = some data) (hm : ev.model = some model)
    (hfit : ev.fit ext = .ok ev') (hr : ev'.RESULTS = some r)
    (hmask : data.niiMASK_img c = 0) :
    r.MAPs c = List.replicate model.OUTPUT_names.length 0 ∧
    (∀ f, r.NRMSE = some f → f c = 0) ∧
    (ev.CONFIG.peaks_filename = none → r.DIRs c = List.replicate 3 0) ∧
    (∀ pf, ev.CONFIG.peaks_filename = some pf →
      r.DIRs c = (ext.loadPeaks pf).img c) := by
  simp only [Evaluation.fit, hd, hm] at hfit
  split at hfit
  · exact absurd hfit (by simp)
  · rename_i kern hkern
    split at hfit
    · exact absurd hfit (by simp)
    · split at hfit
      · rename_i hpf0
        injection hfit with h2
        subst h2
        simp only at hr
        rw [Option.some.injEq] at hr
        subst hr
        have hz := fitLoop_maskZero ev.CONFIG data.scheme model kern ext
          (Option.isSome (none : Option PeaksVol)) data.niiDWI_img
          data.niiMASK_img (loopCoords data.dim)
          (initFitState model.OUTPUT_names.length none) c hmask
        refine ⟨?_, ?_, ?_, ?_⟩
        · show (fitLoop _ _ _ _ _ _ _ _ _ _).MAPs c = _
          rw [hz.2.1]
          rfl
        · intro f hf
          simp only [fitBody] at hf
          split at hf
          · rw [Option.some.injEq] at hf
            subst hf
            show (fitLoop _ _ _ _ _ _ _ _ _ _).NRMSEmap c = 0
            rw [hz.2.2]
            rfl
          · exact absurd hf (by simp)
        · intro _
          show (fitLoop _ _ _ _ _ _ _ _ _ _).DIRs c = _
          rw [hz.1]
          rfl
        · intro pf hpf
          rw [hpf] at hpf0
          exact absurd hpf0 (by simp)
      · rename_i pf' hpf'
        split at hfit
        · exact absurd hfit (by simp)
        · injection hfit with h2
          subst h2
          simp only at hr
          rw [Option.some.injEq] at hr
          subst hr
          have hz := fitLoop_maskZero ev.CONFIG data.scheme model kern ext
            (Option.isSome (some (ext.loadPeaks pf'))) data.niiDWI_img
            data.niiMASK_img (loopCoords data.dim)
            (initFitState model.OUTPUT_names.length (some (ext.loadPeaks pf'))) c
            hmask
          refine ⟨?_, ?_, ?_, ?_⟩
          · show (fitLoop _ _ _ _ _ _ _ _ _ _).MAPs c = _
            rw [hz.2.1]
            rfl
          · intro f hf
            simp only [fitBody] at hf
            split at hf
            · rw [Option.some.injEq] at hf
              subst hf
              show (fitLoop _ _ _ _ _ _ _ _ _ _).NRMSEmap c = 0
              rw [hz.2.2]
              rfl
            · exact absurd hf (by simp)
          · intro h0
            rw [h0] at hpf'
            exact absurd hpf' (by simp)
          · intro pf hpf
            rw [hpf] at hpf'
            rw [Option.some.injEq] at hpf'
            subst hpf'
            show (fitLoop _ _ _ _ _ _ _ _ _ _).DIRs c = _
            rw [hz.1]
            rfl

/-- Witness for `fit_normalization_guard`: with normalization enabled and a
b0 baseline of `2 > 1e-3` the prepared signal is the merged signal divided
by `2`; the guard hypothesis is discharged by evaluation. -/
theorem fit_normalization_guard_witness :
    ((true = true) ∧ voxelB0 [0] (clampNeg [2, 4]) > 1e-3) ∧
    prepareSignal true true [0] 1 [2, 4] =
      (mergeB0step true [0] 1 (voxelB0 [0] (clampNeg [2, 4]))
          (clampNeg [2, 4])).map
        (fun v => v / voxelB0 [0] (clampNeg [2, 4])) := by
  have hguard : (true = true) ∧ voxelB0 [0] (clampNeg [2, 4]) > 1e-3 := by
    refine ⟨rfl, ?_⟩
    norm_num [voxelB0, clampNeg, select, listMean]
  exact ⟨hguard, (fit_normalization_guard true true [0] 1 [2, 4]).1 hguard⟩

/-- The results of fitting `cexEval` (external-peaks mode, all-zero mask). -/
def cexRes : Results :=
  fitBody cexCfg cexData wModel wKern wExt (some (wExt.loadPeaks "peaks.nii"))

/-- The evaluation produced by fitting `cexEval`. -/
def cexEval' : Evaluation := { cexEval with RESULTS := some cexRes }

/-- Witness for `fit_masked_voxel_preserved`: a concrete successful
external-peaks fit with an all-zero mask; a masked-out voxel's maps row
stays zero and its direction row stays the loaded peaks row. -/
theorem fit_masked_voxel_preserved_witness :
    Evaluation.fit cexEval wExt = .ok cexEval' ∧
    cexData.niiMASK_img (0, 0, 0) = 0 ∧
    cexRes.MAPs (0, 0, 0) = List.replicate wModel.OUTPUT_names.length 0 ∧
    cexRes.DIRs (0, 0, 0) = (wExt.loadPeaks "peaks.nii").img (0, 0, 0) :=
  ⟨rfl, rfl,
   (fit_masked_voxel_preserved cexEval wExt cexData wModel cexEval' cexRes
     (0, 0, 0) rfl rfl rfl rfl rfl).1,
   (fit_masked_voxel_preserved cexEval wExt cexData wModel cexEval' cexRes
     (0, 0, 0) rfl rfl rfl rfl rfl).2.2.2 "peaks.nii" rfl⟩

/-- C10: `load_data` without a mask file installs an all-ones mask over
the signal's spatial dimensions, so after a successful subsequent `fit`
every in-range voxel is processed: its output-maps slot holds the value
computed by the per-voxel pipeline (not the zero initialization). -/
theorem load_default_mask_fit_processes_all (ev : Evaluation) (dwi : DWIFile)
    (scheme : Scheme) (ext : Externals) (model : Model) (kern : KernelSet)
    (ev' ev'' : Evaluation) (r : Results) (c : Coord)
    (hm : ev.model = some model) (hk : ev.KERNELS = some kern)
    (hkm : kern.model = model.id) (hpf : ev.CONFIG.peaks_filename = none)
    (hnS : scheme.nS = dwi.nSamples)
    (hload : ev.load_data dwi scheme none = .ok ev')
    (hfit : ev'.fit ext = .ok ev'') (hres : ev''.RESULTS = some r)
    (hc : c.1 < dwi.dim.1 ∧ c.2.1 < dwi.dim.2.1 ∧ c.2.2 < dwi.dim.2.2) :
    ev'.niiDWI =
      some ⟨dwi.dim, dwi.nSamples, rescaleDWI dwi, scheme, fun _ => 1⟩ ∧
    r.MAPs c =
      (voxelOut ev.CONFIG scheme model kern ext false (rescaleDWI dwi)
        (List.replicate 3 0) c).2.1 := by
  simp only [Evaluation.load_data] at hload
  rw [if_neg (fun hh => hh hnS)] at hload
  injection hload with h2
  subst h2
  refine ⟨rfl, ?_⟩
  simp only [Evaluation.fit, hm, hk, hpf] at hfit
  rw [if_neg (fun hh => hh hkm)] at hfit
  injection hfit with h3
  subst h3
  simp only at hres
  rw [Option.some.injEq] at hres
  subst hres
  have hchar := (fitLoop_char ev.CONFIG scheme model kern ext
    (Option.isSome (none : Option PeaksVol)) (rescaleDWI dwi) (fun _ => 1)
    (loopCoords dwi.dim) (loopCoords_nodup dwi.dim)
    (initFitState model.OUTPUT_names.length none) c).2.1
  have hmem : c ∈ loopCoords dwi.dim := (loopCoords_mem dwi.dim c).mpr hc
  show (fitLoop _ _ _ _ _ _ _ _ _ _).MAPs c = _
  rw [hchar, if_pos ⟨hmem, one_ne_zero⟩]
  rfl

/-- Evaluation with model and kernels set, nothing loaded yet. -/
def wEval10 : Evaluation :=
  { initialEvaluation with model := some wModel, KERNELS := some wKern }

/-- A 1×1×1 DWI volume with 2 samples per voxel and identity scaling. -/
def wDWI2 : DWIFile := ⟨(1, 1, 1), 2, fun _ => [1, 1], 1, 0, true, true⟩

/-- The data state `load_data` builds from `wDWI2` with no mask given. -/
def wData10 : DataState := ⟨(1, 1, 1), 2, rescaleDWI wDWI2, wScheme, fun _ => 1⟩

/-- `wEval10` after loading `wDWI2` without a mask. -/
def wEval10' : Evaluation := { wEval10 with niiDWI := some wData10 }

/-- The results of fitting `wEval10'`. -/
def wRes10 : Results := fitBody wEval10.CONFIG wData10 wModel wKern wExt none

/-- `wEval10'` after fitting. -/
def wEval10'' : Evaluation := { wEval10' with RESULTS := some wRes10 }

/-- Witness for `load_default_mask_fit_processes_all`: a concrete
mask-less load followed by a successful fit; the single voxel's maps slot
holds the per-voxel pipeline value. -/
theorem load_default_mask_fit_processes_all_witness :
    Evaluation.load_data wEval10 wDWI2 wScheme none = .ok wEval10' ∧
    Evaluation.fit wEval10' wExt = .ok wEval10'' ∧
    wRes10.MAPs (0, 0, 0) =
      (voxelOut wEval10.CONFIG wScheme wModel wKern wExt false
        (rescaleDWI wDWI2) (List.replicate 3 0) (0, 0, 0)).2.1 :=
  ⟨rfl, rfl,
   (load_default_mask_fit_processes_all wEval10 wDWI2 wScheme wExt wModel
     wKern wEval10' wEval10'' wRes10 (0, 0, 0) rfl rfl rfl rfl rfl rfl rfl rfl
     (by decide)).2⟩

end Amico
